import Mathlib

/-!
Shallow embedding of the installation dispatcher of `src/main.py`
(class `ExilesInstaller`, lines 435-771): batch orchestration
(`install_apps`), per-descriptor dispatch (`install_single_app`), the four
strategies (`install_via_winget`, `install_via_github`,
`install_via_direct_download`, `install_via_zip`), the generic download
path (`download_and_install`), installer execution (`run_installer`) and
post-step execution (`run_post_steps`).

External effects (HTTP GET, the GitHub releases endpoint, subprocess
execution, SHA-256 digests, zip parsing) are supplied by an explicit
environment `Env`; the observable side effects (files written or deleted,
archive entries extracted, log lines, processes spawned, network requests,
progress/status updates) are threaded through an explicit state `St`.
Python exceptions that can escape a helper are modelled with
`Except String`; a helper whose body is entirely wrapped in
`try/except Exception` returns a plain `Bool`.
-/

set_option autoImplicit false

namespace ExilesInstaller

/-- One log line: `log_message(message, level)` with
`level ∈ {info, success, warning, error}` (main.py line 773). -/
structure LogEntry where
  level : String
  msg : String
deriving DecidableEq, Repr

/-- A post-installation step: the Python dict read with
`step.get('Name', 'Unknown')` and `step.get('Script', '')`
(main.py lines 750-751); absent keys are `none`. -/
structure PostStep where
  stepName : Option String := none
  script : Option String := none
deriving DecidableEq, Repr

/-- An application descriptor (a catalog JSON object). Every field is read
in the source with `app.get(...)`, so each is an `Option`; absent keys are
`none`. -/
structure App where
  appName : Option String := none
  install_type : Option String := none
  winget_id : Option String := none
  github_repo : Option String := none
  github_asset : Option String := none
  url : Option String := none
  filename : Option String := none
  extract_to : Option String := none
  checksum : Option String := none
  post_steps : List PostStep := []
deriving DecidableEq, Repr

/-- One asset object of the GitHub releases-latest JSON body, read with
`asset.get('name', '')` and `asset.get('browser_download_url')`
(main.py lines 541-543). -/
structure Asset where
  assetName : Option String := none
  browser_download_url : Option String := none
deriving DecidableEq, Repr

/-- Result of `requests.get` on a download URL: either a raised
`requests.exceptions.RequestException` (connection failure, timeout, or
`raise_for_status` on a non-2xx response) or the streamed body bytes. -/
inductive DlResult where
  | err (msg : String)
  | ok (content : List Nat)
deriving DecidableEq, Repr

/-- Result of the releases-latest query: a raised request/JSON error, or
the parsed `assets` array. -/
inductive RelResult where
  | err (msg : String)
  | ok (assets : List Asset)
deriving DecidableEq, Repr

/-- Result of `subprocess.run(cmd, timeout=t)`: `timeout` models a raised
`subprocess.TimeoutExpired`, `exc` any other raised exception, `exited`
a completed process with its return code, stdout and stderr. -/
inductive ProcResult where
  | timeout
  | exc (msg : String)
  | exited (code : Int) (stdout : String) (stderr : String)
deriving DecidableEq, Repr

/-- The external world: deterministic oracles for the third-party
operations the dispatcher shells out to. `sha256hex` abstracts
`hashlib.sha256(...).hexdigest()`; `parseZip` abstracts
`zipfile.ZipFile(...)`, returning `none` for a `BadZipFile` and otherwise
the archive's members (name, bytes) in order. -/
structure Env where
  http_get : String → DlResult
  releases_get : String → RelResult
  run_process : List String → Nat → ProcResult
  sha256hex : List Nat → String
  parseZip : List Nat → Option (List (String × List Nat))

/-- Observable dispatcher state: the download directory's files (path to
bytes), extracted archive members (full path to bytes), the ordered log,
spawned process command lines, requested URLs, progress updates (recorded
as the pair `(completed, total)` whose ratio times 100 the GUI shows),
status-bar updates, and the final `(completed, total)` summaries. -/
structure St where
  files : List (String × List Nat) := []
  extracted : List (String × List Nat) := []
  log : List LogEntry := []
  procs : List (List String) := []
  netCalls : List String := []
  progress : List (Nat × Nat) := []
  statusMsgs : List String := []
  summaries : List (Nat × Nat) := []
deriving DecidableEq, Repr

/-- Python truthiness of an optional string: `None` and `''` are falsy. -/
def pyTruthy : Option String → Bool
  | none => false
  | some s => !s.isEmpty

/-- `startsList hay pat` is true when `pat` is an initial segment of
`hay`. -/
def startsList : List Char → List Char → Bool
  | _, [] => true
  | [], _ :: _ => false
  | h :: hs, p :: ps => h == p && startsList hs ps

/-- `containsList hay pat`: Python's `pat in hay` on character lists. -/
def containsList : List Char → List Char → Bool
  | [], pat => pat.isEmpty
  | h :: hs, pat => startsList (h :: hs) pat || containsList hs pat

/-- Python's substring test `pat in hay` on strings. -/
def strContains (hay pat : String) : Bool :=
  containsList hay.data pat.data

/-- Python's default `str.strip()` whitespace set. -/
def isPySpace (c : Char) : Bool :=
  c == ' ' || c == '\t' || c == '\n' || c == '\r' || c == '\x0b' || c == '\x0c'

/-- Python's `str.strip()`: drop leading and trailing whitespace. -/
def pyStrip (s : String) : String :=
  String.mk (((s.data.dropWhile isPySpace).reverse.dropWhile isPySpace).reverse)

/-- Lower-case an ASCII letter (`str.lower()` on the ASCII range, which is
all the dispatcher compares: hex digests and file suffixes). -/
def asciiLower (c : Char) : Char :=
  if 65 ≤ c.toNat && c.toNat ≤ 90 then Char.ofNat (c.toNat + 32) else c

/-- Python's `str.lower()` (ASCII range). -/
def pyLower (s : String) : String :=
  String.mk (s.data.map asciiLower)

/-- Python's `str.endswith(suffix)`. -/
def pyEndsWith (s suffix : String) : Bool :=
  startsList s.data.reverse suffix.data.reverse

/-- Left-to-right non-overlapping replacement, fuelled so that the
recursion is structural (the fuel is the haystack length, which suffices
for a non-empty pattern). -/
def pyReplaceFuel (pat repl : List Char) : Nat → List Char → List Char
  | 0, l => l
  | _ + 1, [] => []
  | fuel + 1, c :: rest =>
    if startsList (c :: rest) pat && !pat.isEmpty then
      repl ++ pyReplaceFuel pat repl fuel (List.drop pat.length (c :: rest))
    else
      c :: pyReplaceFuel pat repl fuel rest

/-- Python's `str.replace(pat, repl)` for a non-empty pattern. -/
def pyReplace (s pat repl : String) : String :=
  String.mk (pyReplaceFuel pat.data repl.data s.data.length s.data)

/-- Python's slice `s[:n]`. -/
def pyTake (s : String) (n : Nat) : String :=
  String.mk (s.data.take n)

/-- Index of the last `'.'` in a character list, if any. -/
def lastDotIdx (s : List Char) : Option Nat :=
  (List.range s.length).foldl
    (fun acc i => if s.get? i = some '.' then some i else acc) none

/-- `pathlib.PurePath.suffix` for a bare file name: the substring from the
last dot, unless that dot is the first or the last character. -/
def pySuffix (s : String) : String :=
  match lastDotIdx s.data with
  | none => ""
  | some i => if 0 < i && i < s.data.length - 1 then String.mk (s.data.drop i) else ""

/-- Insert or overwrite the binding of `k` in an association list. -/
def setAssoc {α : Type} : List (String × α) → String → α → List (String × α)
  | [], k, v => [(k, v)]
  | (k', v') :: rest, k, v =>
      if k' == k then (k, v) :: rest else (k', v') :: setAssoc rest k v

/-- Remove every binding of `k` (`Path.unlink(missing_ok=True)`). -/
def delAssoc {α : Type} (m : List (String × α)) (k : String) : List (String × α) :=
  m.filter (fun p => !(p.fst == k))

/-- Look up the binding of `k`. -/
def lookupAssoc {α : Type} : List (String × α) → String → Option α
  | [], _ => none
  | (k', v) :: rest, k => if k' == k then some v else lookupAssoc rest k

/-- `log_message(message, level)` (main.py line 773): append one log
line. -/
def logMessage (st : St) (message level : String) : St :=
  { st with log := st.log ++ [⟨level, message⟩] }

/-- Write a file (open `'wb'` truncates: overwrite semantics). -/
def setFile (st : St) (path : String) (content : List Nat) : St :=
  { st with files := setAssoc st.files path content }

/-- `Path.unlink(missing_ok=True)` on a download artifact. -/
def delFile (st : St) (path : String) : St :=
  { st with files := delAssoc st.files path }

/-- Record a spawned `subprocess.run` command line. -/
def addProc (st : St) (cmd : List String) : St :=
  { st with procs := st.procs ++ [cmd] }

/-- Record a `requests.get` URL. -/
def addNet (st : St) (u : String) : St :=
  { st with netCalls := st.netCalls ++ [u] }

/-- `update_progress(completed / total * 100)`, recorded as the pair. -/
def pushProgress (st : St) (p : Nat × Nat) : St :=
  { st with progress := st.progress ++ [p] }

/-- `update_status(text)`. -/
def pushStatus (st : St) (s : String) : St :=
  { st with statusMsgs := st.statusMsgs ++ [s] }

/-- `installation_complete(completed, total)` (main.py line 469). -/
def pushSummary (st : St) (p : Nat × Nat) : St :=
  { st with summaries := st.summaries ++ [p] }

/-- Destination path of a downloaded artifact:
`Path.home() / "Downloads" / "ExilesHUD" / filename`. -/
def dlPath (filename : String) : String :=
  "Downloads/ExilesHUD/" ++ filename

/-- Destination path of a zip extraction target. -/
def extractPath (extract_to : String) : String :=
  "Downloads/ExilesHUD/" ++ extract_to

/-- The post-step command line `['powershell', '-Command', script]`
(main.py line 759). -/
def psCmd (script : String) : List String :=
  ["powershell", "-Command", script]

/-- The `for step in post_steps` loop body of `run_post_steps`
(main.py lines 749-765). A step with an empty script is skipped; a
completed process logs success or a warning; a raised exception (for
example `subprocess.TimeoutExpired`) aborts the loop and propagates to
the enclosing `except`. -/
def postStepsLoop (env : Env) : List PostStep → St → Except String Unit × St
  | [], st => (Except.ok (), st)
  | step :: rest, st =>
    let stepName := step.stepName.getD "Unknown"
    let script := step.script.getD ""
    if script.isEmpty then postStepsLoop env rest st
    else
      let st := logMessage st ("Executing step: " ++ stepName) "info"
      let st := addProc st (psCmd script)
      match env.run_process (psCmd script) 120 with
      | ProcResult.exited code _ stderr =>
        if code == 0 then
          postStepsLoop env rest
            (logMessage st ("Step \x27" ++ stepName ++ "\x27 completed") "success")
        else
          postStepsLoop env rest
            (logMessage st ("Step \x27" ++ stepName ++ "\x27 failed: " ++ stderr) "warning")
      | ProcResult.timeout => (Except.error "TimeoutExpired", st)
      | ProcResult.exc m => (Except.error m, st)

/-- `run_post_steps` (main.py lines 740-771): vacuously `True` on an empty
list; otherwise runs the loop under `try/except Exception`, converting a
raised exception into an error log line and `False`. -/
def run_post_steps (env : Env) (app : App) (st : St) : Bool × St :=
  if app.post_steps.isEmpty then (true, st)
  else
    let st := logMessage st "Running post-installation steps..." "info"
    match postStepsLoop env app.post_steps st with
    | (Except.ok _, st) => (true, st)
    | (Except.error e, st) => (false, logMessage st ("Post-steps error: " ++ e) "error")

/-- The installer command line chosen in `run_installer`
(main.py lines 715-718): `msiexec /i <path> /quiet /norestart` when the
lower-cased path suffix is `.msi`, otherwise `<path> /S`. -/
def installerCmd (filename : String) : List String :=
  if pyLower (pySuffix filename) == ".msi" then
    ["msiexec", "/i", dlPath filename, "/quiet", "/norestart"]
  else
    [dlPath filename, "/S"]

/-- `run_installer` (main.py lines 710-738): run the downloaded artifact
with its silent flags; on exit code 0 run post-steps and return their
result; otherwise log and fail. -/
def run_installer (env : Env) (filename : String) (app : App) (st : St) : Bool × St :=
  let st := logMessage st ("Running installer: " ++ filename) "info"
  let cmd := installerCmd filename
  let st := addProc st cmd
  match env.run_process cmd 600 with
  | ProcResult.exited code _ stderr =>
    if code == 0 then
      run_post_steps env app (logMessage st "Installation completed successfully" "success")
    else
      let st := logMessage st ("Installation failed with exit code: " ++ toString code) "error"
      let st := if stderr.isEmpty then st
                else logMessage st ("Installer error output: " ++ stderr) "error"
      (false, st)
  | ProcResult.timeout => (false, logMessage st "Installer timed out" "error")
  | ProcResult.exc m => (false, logMessage st ("Installer error: " ++ m) "error")

/-- The tail of `download_and_install` after a successful (and, when
requested, verified) download (main.py lines 696-701): execute the
artifact only when the destination file name ends in `.exe` or `.msi`
(case-sensitive), otherwise log success and run post-steps. -/
def finishInstall (env : Env) (filename : String) (app : App) (st : St) : Bool × St :=
  if pyEndsWith filename ".exe" || pyEndsWith filename ".msi" then
    run_installer env filename app st
  else
    run_post_steps env app (logMessage st "File downloaded successfully" "success")

/-- `download_and_install(url, filename, app)` (main.py lines 642-708):
stream the body to the download directory, hash it only when the
descriptor supplies a non-empty checksum, compare case-insensitively,
delete the artifact and fail on mismatch, otherwise hand over to the
extension dispatch. The whole body is wrapped in `try/except`, so the
function returns a plain `Bool`. Per-chunk megabyte progress log lines
(lines 678-681) are elided: they depend on chunk boundaries. -/
def download_and_install (env : Env) (url filename : String) (app : App) (st : St) :
    Bool × St :=
  let st := logMessage st ("Downloading from: " ++ url) "info"
  let st := addNet st url
  match env.http_get url with
  | DlResult.err e => (false, logMessage st ("Network error during download: " ++ e) "error")
  | DlResult.ok content =>
    let expected := pyStrip (app.checksum.getD "")
    let st := if expected.isEmpty then st
      else logMessage st ("Will verify checksum: " ++ pyTake expected 16 ++ "...") "info"
    let st := setFile st (dlPath filename) content
    let st := logMessage st
      ("Download completed: " ++ dlPath filename ++ " (" ++ toString content.length ++ " bytes)")
      "info"
    if expected.isEmpty then finishInstall env filename app st
    else
      let calculated := env.sha256hex content
      if pyLower calculated == pyLower expected then
        finishInstall env filename app (logMessage st "Checksum verification passed" "success")
      else
        let st := logMessage st
          ("Checksum verification failed! Expected: " ++ expected ++ ", Got: " ++ calculated) "error"
        (false, delFile st (dlPath filename))

/-- Extract every archive member into the extraction directory
(`ZipFile.extractall`, main.py line 625): members are written in order,
overwriting same-named files and leaving other files in place. -/
def extractAll (st : St) (extract_to : String) (entries : List (String × List Nat)) : St :=
  entries.foldl
    (fun s e =>
      { s with extracted := setAssoc s.extracted (extractPath extract_to ++ "/" ++ e.fst) e.snd })
    st

/-- The extraction tail of `install_via_zip` (main.py lines 621-633),
reached after the download and the optional checksum check: a
`BadZipFile` logs, deletes the artifact and fails; otherwise every member
is extracted and `run_post_steps`'s result is returned. -/
def zipExtractPhase (env : Env) (app : App) (filename extract_to : String)
    (content : List Nat) (st : St) : Except String Bool × St :=
  match env.parseZip content with
  | none =>
    let st := logMessage st "Downloaded file is not a valid zip archive" "error"
    (Except.ok false, delFile st (dlPath filename))
  | some entries =>
    let st := extractAll st extract_to entries
    let st := logMessage st ("Extracted to: " ++ extractPath extract_to) "info"
    let r := run_post_steps env app st
    (Except.ok r.fst, r.snd)

/-- `install_via_zip` (main.py lines 569-640). Line 573 evaluates
`filename.replace('.zip', '')` before the missing-field check, so a
missing `filename` raises `AttributeError` out of this function (Python
evaluates `dict.get`'s default argument eagerly); that is the only
exception that escapes, hence the `Except` result. -/
def install_via_zip (env : Env) (app : App) (st : St) : Except String Bool × St :=
  match app.filename with
  | none =>
      (Except.error "\x27NoneType\x27 object has no attribute \x27replace\x27", st)
  | some filename =>
    let extract_to := app.extract_to.getD (pyReplace filename ".zip" "")
    if !pyTruthy app.url || filename.isEmpty then
      (Except.ok false, logMessage st "Missing download URL or filename" "error")
    else
      let url := app.url.getD ""
      let st := logMessage st ("Downloading zip: " ++ filename) "info"
      let st := addNet st url
      match env.http_get url with
      | DlResult.err e =>
          (Except.ok false,
           logMessage st ("Network error during zip download: " ++ e) "error")
      | DlResult.ok content =>
        let expected := pyStrip (app.checksum.getD "")
        let st := if expected.isEmpty then st
          else logMessage st ("Will verify checksum: " ++ pyTake expected 16 ++ "...") "info"
        let st := setFile st (dlPath filename) content
        let st := logMessage st
          ("Downloaded zip to: " ++ dlPath filename ++ " (" ++ toString content.length ++ " bytes)")
          "info"
        if expected.isEmpty then zipExtractPhase env app filename extract_to content st
        else if pyLower (env.sha256hex content) == pyLower expected then
          zipExtractPhase env app filename extract_to content
            (logMessage st "Zip checksum verification passed" "success")
        else
          let st := logMessage st
            ("Zip checksum verification failed! Expected: " ++ expected ++
             ", Got: " ++ env.sha256hex content) "error"
          (Except.ok false, delFile st (dlPath filename))

/-- `install_via_direct_download` (main.py lines 557-567): require `url`
and `filename`, then delegate to the generic download path. -/
def install_via_direct_download (env : Env) (app : App) (st : St) : Bool × St :=
  if !pyTruthy app.url || !pyTruthy app.filename then
    (false, logMessage st "Missing download URL or filename" "error")
  else
    let filename := app.filename.getD ""
    let st := logMessage st ("Downloading: " ++ filename) "info"
    download_and_install env (app.url.getD "") filename app st

/-- The winget command line (main.py line 503). -/
def wingetCmd (id : String) : List String :=
  ["winget", "install", "--id", id, "--silent",
   "--accept-package-agreements", "--accept-source-agreements"]

/-- `install_via_winget` (main.py lines 493-518): require `winget_id`, run
the package manager with a 300s ceiling; exit code 0 succeeds, anything
else (non-zero exit, timeout, other exception) fails. Post-steps are
never invoked on this path. -/
def install_via_winget (env : Env) (app : App) (st : St) : Bool × St :=
  if !pyTruthy app.winget_id then
    (false, logMessage st "No winget ID specified" "error")
  else
    let id := app.winget_id.getD ""
    let st := logMessage st ("Installing via winget: " ++ id) "info"
    let st := addProc st (wingetCmd id)
    match env.run_process (wingetCmd id) 300 with
    | ProcResult.exited code _ stderr =>
      if code == 0 then (true, logMessage st "Winget installation completed" "success")
      else (false, logMessage st ("Winget installation failed: " ++ stderr) "error")
    | ProcResult.timeout => (false, logMessage st "Winget installation timed out" "error")
    | ProcResult.exc m => (false, logMessage st ("Winget installation error: " ++ m) "error")

/-- The releases-latest endpoint URL (main.py line 533). -/
def apiUrl (repo : String) : String :=
  "https://api.github.com/repos/" ++ repo ++ "/releases/latest"

/-- The asset-selection loop of `install_via_github` (main.py lines
540-544): the Python variable `download_url` after the loop — the
`browser_download_url` of the FIRST asset whose name contains the
pattern (the loop breaks there even when that URL is absent). -/
def findAssetUrl (pattern : String) : List Asset → Option String
  | [] => none
  | a :: rest =>
    if strContains (a.assetName.getD "") pattern then a.browser_download_url
    else findAssetUrl pattern rest

/-- `install_via_github` (main.py lines 520-555): require `github_repo`
and `github_asset`, query releases-latest, select the first asset whose
name contains the pattern, then delegate to `download_and_install` with
the PATTERN as destination file name. -/
def install_via_github (env : Env) (app : App) (st : St) : Bool × St :=
  if !pyTruthy app.github_repo || !pyTruthy app.github_asset then
    (false, logMessage st "Missing GitHub repository or asset name" "error")
  else
    let repo := app.github_repo.getD ""
    let asset_name := app.github_asset.getD ""
    let st := logMessage st ("Downloading from GitHub: " ++ repo) "info"
    let st := addNet st (apiUrl repo)
    match env.releases_get (apiUrl repo) with
    | RelResult.err e => (false, logMessage st ("GitHub download error: " ++ e) "error")
    | RelResult.ok assets =>
      let dl := findAssetUrl asset_name assets
      if !pyTruthy dl then
        (false,
         logMessage st ("Asset \x27" ++ asset_name ++ "\x27 not found in latest release") "error")
      else
        download_and_install env (dl.getD "") asset_name app st

/-- The dispatch body of `install_single_app` (main.py lines 474-486)
before its `except` clause: exact, case-sensitive string match on
`app.get('install_type', 'unknown')`. Only the zip strategy can raise. -/
def dispatchInstall (env : Env) (app : App) (st : St) : Except String Bool × St :=
  let t := app.install_type.getD "unknown"
  if t == "winget" then
    let r := install_via_winget env app st
    (Except.ok r.fst, r.snd)
  else if t == "github" then
    let r := install_via_github env app st
    (Except.ok r.fst, r.snd)
  else if t == "exe" || t == "msi" then
    let r := install_via_direct_download env app st
    (Except.ok r.fst, r.snd)
  else if t == "zip" then
    install_via_zip env app st
  else
    (Except.ok false, logMessage st ("Unknown install type: " ++ t) "error")

/-- `install_single_app` (main.py lines 471-491): the dispatch body under
`try/except Exception` — any raised exception becomes an error log line
and `False`; the public call never propagates an exception. -/
def install_single_app (env : Env) (app : App) (st : St) : Bool × St :=
  match dispatchInstall env app st with
  | (Except.ok b, st) => (b, st)
  | (Except.error e, st) => (false, logMessage st ("Error installing app: " ++ e) "error")

/-- `f"\n{'='*50}"` (main.py line 443). -/
def sepLine1 : String := "\n" ++ String.mk (List.replicate 50 '=')

/-- `f"{'='*50}"` (main.py line 445). -/
def sepLine2 : String := String.mk (List.replicate 50 '=')

/-- The head of each batch iteration (main.py lines 442-449): the three
banner log lines, the progress report with the PRE-install tally, and the
status-bar update. -/
def preInstallState (app : App) (total completed : Nat) (st : St) : St :=
  pushStatus
    (pushProgress
      (logMessage
        (logMessage (logMessage st sepLine1 "info")
          ("Installing: " ++ app.appName.getD "Unknown") "info")
        sepLine2 "info")
      (completed, total))
    ("Installing " ++ app.appName.getD "Unknown" ++ "...")

/-- The tail of each batch iteration (main.py lines 454-461): the success
or failure log line and the progress report with the POST-install tally. -/
def tallyState (app : App) (b : Bool) (total completed2 : Nat) (st : St) : St :=
  pushProgress
    (if b then
      logMessage st ("✓ " ++ app.appName.getD "Unknown" ++ " installed successfully") "success"
    else logMessage st ("✗ Failed to install " ++ app.appName.getD "Unknown") "error")
    (completed2, total)

/-- The `for app in apps` loop of `install_apps` (main.py lines 441-461):
banner log lines, a progress report before and after each descriptor,
the per-descriptor install, and the success/failure tally. -/
def install_apps_loop (env : Env) : List App → Nat → Nat → St → Nat × St
  | [], _, completed, st => (completed, st)
  | app :: rest, total, completed, st =>
    let st1 := preInstallState app total completed st
    let r := install_single_app env app st1
    let completed2 := if r.fst then completed + 1 else completed
    let st2 := tallyState app r.fst total completed2 r.snd
    install_apps_loop env rest total completed2 st2

/-- `install_apps` (main.py lines 435-469): sequential batch over the
descriptors, then `installation_complete(completed, total_apps)` in the
`finally` block. Returns `(completed, total, final state)`. -/
def install_apps (env : Env) (apps : List App) (st : St) : Nat × Nat × St :=
  let r := install_apps_loop env apps apps.length 0 st
  (r.fst, apps.length, pushSummary r.snd (r.fst, apps.length))

/-- A process run that completed (did not raise): `subprocess.run`
returned, with any exit code. -/
def isExited : ProcResult → Bool
  | ProcResult.exited _ _ _ => true
  | _ => false

/-- A process run that completed with exit code 0 — the source's success
test `result.returncode == 0`. -/
def isExitZero : ProcResult → Bool
  | ProcResult.exited code _ _ => code == 0
  | _ => false

/-! ### Concrete fixtures used by the witness theorems -/

/-- The empty starting state. -/
def stEmpty : St := {}

/-- An environment where every operation succeeds: downloads return the
byte `[1]`, every process exits 0, the digest of any content is `"aa"`,
and any payload parses as an archive with one member `f ↦ [2]`. -/
def envW : Env where
  http_get := fun _ => DlResult.ok [1]
  releases_get := fun _ => RelResult.ok []
  run_process := fun _ _ => ProcResult.exited 0 "" ""
  sha256hex := fun _ => "aa"
  parseZip := fun _ => some [("f", [2])]

/-- A winget descriptor that succeeds under `envW`. -/
def appWingetOk : App :=
  { appName := some "One", install_type := some "winget", winget_id := some "Pkg.One" }

/-- A zip descriptor whose checksum `"bb"` mismatches `envW`'s digest
`"aa"`. -/
def appZipBad : App :=
  { appName := some "Two", install_type := some "zip", url := some "u",
    filename := some "a.zip", checksum := some "bb" }

/-- A second winget descriptor that succeeds under `envW`. -/
def appWingetTwo : App :=
  { appName := some "Three", install_type := some "winget", winget_id := some "Pkg.Two" }

/-- Three-descriptor batch where only the second fails. -/
def appsW8 : List App := [appWingetOk, appZipBad, appWingetTwo]

/-- A winget descriptor with no `winget_id`. -/
def appNoWingetId : App := { install_type := some "winget" }

/-- A descriptor with an unrecognized type tag. -/
def appUnknown : App := { install_type := some "unknown_strategy" }

/-- A zip descriptor with no `filename` (raises `AttributeError` at
main.py line 573). -/
def appZipNoFilename : App := { install_type := some "zip", url := some "u" }

/-- A zip descriptor with no checksum and no post-steps, succeeding under
`envW`. -/
def appZipOk : App :=
  { install_type := some "zip", url := some "u", filename := some "a.zip" }

/-- A descriptor with all defaults (used for the extension-dispatch
witness: `download_and_install` never reads the type tag). -/
def appPlain : App := {}

/-- A winget descriptor that also carries a (never run) post-step. -/
def appWingetPost : App :=
  { install_type := some "winget", winget_id := some "Pkg.One",
    post_steps := [{ stepName := some "Configure", script := some "x" }] }

/-- An environment where the post-step script `"x"` exits 3 with stderr
`"boom"` and every other process exits 0. -/
def envPS : Env where
  http_get := fun _ => DlResult.ok [1]
  releases_get := fun _ => RelResult.ok []
  run_process := fun cmd _ =>
    if cmd == psCmd "x" then ProcResult.exited 3 "" "boom" else ProcResult.exited 0 "" ""
  sha256hex := fun _ => "aa"
  parseZip := fun _ => some [("f", [2])]

/-- A zip descriptor with one post-step running script `"x"`. -/
def appPS : App :=
  { install_type := some "zip", url := some "u", filename := some "a.zip",
    post_steps := [{ stepName := some "Step1", script := some "x" }] }

/-- An environment where the post-step script `"x"` hits its timeout and
every other process exits 0. -/
def envC3 : Env where
  http_get := fun _ => DlResult.ok [7]
  releases_get := fun _ => RelResult.ok []
  run_process := fun cmd _ =>
    if cmd == psCmd "x" then ProcResult.timeout else ProcResult.exited 0 "" ""
  sha256hex := fun _ => ""
  parseZip := fun _ => some [("f", [1])]

/-- A zip descriptor whose download and extraction succeed under `envC3`
and whose single post-step times out. -/
def appC3 : App :=
  { install_type := some "zip", url := some "u", filename := some "a.zip",
    post_steps := [{ stepName := some "Step1", script := some "x" }] }

/-- The GitHub descriptor of the C4 scenario. -/
def appC4 : App :=
  { install_type := some "github", github_repo := some "org/tool",
    github_asset := some "windows-x64" }

/-- The mocked releases response of the C4 scenario: two assets, of which
only `tool-windows-x64.zip` matches the pattern; its payload `[80, 75]`
parses as a valid archive. -/
def envC4 : Env where
  http_get := fun u =>
    if u == "https://example.com/tool-windows-x64.zip" then DlResult.ok [80, 75]
    else DlResult.err "404"
  releases_get := fun u =>
    if u == apiUrl "org/tool" then
      RelResult.ok
        [{ assetName := some "tool-windows-x64.zip",
           browser_download_url := some "https://example.com/tool-windows-x64.zip" },
         { assetName := some "tool-linux.tar.gz",
           browser_download_url := some "https://example.com/tool-linux.tar.gz" }]
    else RelResult.err "404"
  run_process := fun _ _ => ProcResult.exited 0 "" ""
  sha256hex := fun _ => ""
  parseZip := fun _ => some [("tool.exe", [1])]

/-! ### Association-list lemmas -/

lemma lookupAssoc_setAssoc_self {α : Type} (m : List (String × α)) (k : String) (v : α) :
    lookupAssoc (setAssoc m k v) k = some v := by
  induction m with
  | nil => simp [setAssoc, lookupAssoc]
  | cons p rest ih =>
    by_cases h : p.fst == k
    · simp only [setAssoc]
      rw [show (p.fst, p.snd) = p from rfl] at *
      simp [h, lookupAssoc]
    · simp only [setAssoc]
      rw [show (p.fst, p.snd) = p from rfl] at *
      simp only [h, if_false, lookupAssoc, ih]
      simp [lookupAssoc, h, ih]

lemma lookupAssoc_setAssoc_ne {α : Type} (m : List (String × α)) (k k' : String) (v : α)
    (h : k' ≠ k) : lookupAssoc (setAssoc m k v) k' = lookupAssoc m k' := by
  induction m with
  | nil =>
    simp [setAssoc, lookupAssoc]
    intro hk
    exact absurd hk.symm h
  | cons p rest ih =>
    by_cases hp : p.fst == k
    · simp only [setAssoc]
      rw [show (p.fst, p.snd) = p from rfl] at *
      simp only [hp, if_true, lookupAssoc]
      have hk : p.fst = k := by simpa using hp
      have : (k == k') = false := by
        simp only [beq_eq_false_iff_ne]
        exact fun hh => h hh.symm
      have hpk : (p.fst == k') = false := by
        rw [hk]; exact this
      simp [this, hpk]
    · simp only [setAssoc]
      rw [show (p.fst, p.snd) = p from rfl] at *
      simp only [hp, if_false, lookupAssoc]
      by_cases hq : p.fst == k'
      · simp [hq]
      · simp [hq, ih]

/-! ### Projection lemmas for the primitive state operations -/

@[simp] lemma extractAll_files (st : St) (et : String) (es : List (String × List Nat)) :
    (extractAll st et es).files = st.files := by
  induction es generalizing st with
  | nil => rfl
  | cons e rest ih => simp only [extractAll, List.foldl] at ih ⊢; exact ih _

@[simp] lemma extractAll_log (st : St) (et : String) (es : List (String × List Nat)) :
    (extractAll st et es).log = st.log := by
  induction es generalizing st with
  | nil => rfl
  | cons e rest ih => simp only [extractAll, List.foldl] at ih ⊢; exact ih _

@[simp] lemma extractAll_procs (st : St) (et : String) (es : List (String × List Nat)) :
    (extractAll st et es).procs = st.procs := by
  induction es generalizing st with
  | nil => rfl
  | cons e rest ih => simp only [extractAll, List.foldl] at ih ⊢; exact ih _

@[simp] lemma extractAll_netCalls (st : St) (et : String) (es : List (String × List Nat)) :
    (extractAll st et es).netCalls = st.netCalls := by
  induction es generalizing st with
  | nil => rfl
  | cons e rest ih => simp only [extractAll, List.foldl] at ih ⊢; exact ih _

@[simp] lemma extractAll_progress (st : St) (et : String) (es : List (String × List Nat)) :
    (extractAll st et es).progress = st.progress := by
  induction es generalizing st with
  | nil => rfl
  | cons e rest ih => simp only [extractAll, List.foldl] at ih ⊢; exact ih _

/-! ### State-extension relation

`stExt st st'` says `st'` is reachable from `st` by operations of the
per-descriptor install chain: the log only grows by appending (the old log
is a prefix of the new one) and the progress list is untouched (only the
batch loop pushes progress). -/

def stExt (st st' : St) : Prop :=
  st.log <+: st'.log ∧ st'.progress = st.progress

lemma stExt_intro {st st' : St} (h1 : st.log <+: st'.log)
    (h2 : st'.progress = st.progress) : stExt st st' :=
  ⟨h1, h2⟩

lemma stExt_refl (st : St) : stExt st st :=
  ⟨List.prefix_refl _, rfl⟩

lemma stExt_trans {a b c : St} (h1 : stExt a b) (h2 : stExt b c) : stExt a c :=
  ⟨h1.1.trans h2.1, h2.2.trans h1.2⟩

lemma stExt_mem {st st' : St} {e : LogEntry} (h : stExt st st') (he : e ∈ st.log) :
    e ∈ st'.log :=
  h.1.subset he

/-! ### The install chain only extends the state -/

lemma stExt_postStepsLoop (env : Env) (steps : List PostStep) :
    ∀ st : St, stExt st (postStepsLoop env steps st).snd := by
  induction steps with
  | nil => intro st; exact stExt_refl st
  | cons s rest ih =>
    intro st
    simp only [postStepsLoop]
    split
    · exact ih st
    · split
      · split
        · refine stExt_trans ?_ (ih _)
          exact stExt_intro
            (by simp [logMessage, addProc, List.append_assoc, List.prefix_append])
            (by simp [logMessage, addProc])
        · refine stExt_trans ?_ (ih _)
          exact stExt_intro
            (by simp [logMessage, addProc, List.append_assoc, List.prefix_append])
            (by simp [logMessage, addProc])
      · exact stExt_intro
          (by simp [logMessage, addProc, List.append_assoc, List.prefix_append])
          (by simp [logMessage, addProc])
      · exact stExt_intro
          (by simp [logMessage, addProc, List.append_assoc, List.prefix_append])
          (by simp [logMessage, addProc])

lemma stExt_run_post_steps (env : Env) (app : App) (st : St) :
    stExt st (run_post_steps env app st).snd := by
  simp only [run_post_steps]
  split
  · exact stExt_refl st
  · have hbase : stExt st (logMessage st "Running post-installation steps..." "info") :=
      stExt_intro (by simp [logMessage, List.prefix_append]) (by simp [logMessage])
    have hloop := stExt_postStepsLoop env app.post_steps
      (logMessage st "Running post-installation steps..." "info")
    split
    case _ heq =>
      rw [heq] at hloop
      exact stExt_trans hbase hloop
    case _ heq =>
      rw [heq] at hloop
      refine stExt_trans hbase (stExt_trans hloop ?_)
      exact stExt_intro (by simp [logMessage, List.prefix_append]) (by simp [logMessage])

lemma stExt_run_installer (env : Env) (filename : String) (app : App) (st : St) :
    stExt st (run_installer env filename app st).snd := by
  simp only [run_installer]
  split
  · split
    · refine stExt_trans ?_ (stExt_run_post_steps env app _)
      exact stExt_intro
        (by simp [logMessage, addProc, List.append_assoc, List.prefix_append])
        (by simp [logMessage, addProc])
    · split
      · exact stExt_intro
          (by simp [logMessage, addProc, List.append_assoc, List.prefix_append])
          (by simp [logMessage, addProc])
      · exact stExt_intro
          (by simp [logMessage, addProc, List.append_assoc, List.prefix_append])
          (by simp [logMessage, addProc])
  · exact stExt_intro
      (by simp [logMessage, addProc, List.append_assoc, List.prefix_append])
      (by simp [logMessage, addProc])
  · exact stExt_intro
      (by simp [logMessage, addProc, List.append_assoc, List.prefix_append])
      (by simp [logMessage, addProc])

lemma stExt_finishInstall (env : Env) (filename : String) (app : App) (st : St) :
    stExt st (finishInstall env filename app st).snd := by
  simp only [finishInstall]
  split
  · exact stExt_run_installer env filename app st
  · refine stExt_trans ?_ (stExt_run_post_steps env app _)
    exact stExt_intro (by simp [logMessage, List.prefix_append]) (by simp [logMessage])

lemma stExt_download_and_install (env : Env) (url filename : String) (app : App) (st : St) :
    stExt st (download_and_install env url filename app st).snd := by
  simp only [download_and_install]
  split
  · exact stExt_intro
      (by simp [logMessage, addNet, List.append_assoc, List.prefix_append])
      (by simp [logMessage, addNet])
  · split
    · refine stExt_trans ?_ (stExt_finishInstall env filename app _)
      exact stExt_intro
        (by simp [logMessage, addNet, setFile, List.append_assoc, List.prefix_append])
        (by simp [logMessage, addNet, setFile])
    · split
      · refine stExt_trans ?_ (stExt_finishInstall env filename app _)
        exact stExt_intro
          (by simp [logMessage, addNet, setFile, List.append_assoc, List.prefix_append])
          (by simp [logMessage, addNet, setFile])
      · exact stExt_intro
          (by simp [logMessage, addNet, setFile, delFile, List.append_assoc,
            List.prefix_append])
          (by simp [logMessage, addNet, setFile, delFile])

lemma stExt_zipExtractPhase (env : Env) (app : App) (filename extract_to : String)
    (content : List Nat) (st : St) :
    stExt st (zipExtractPhase env app filename extract_to content st).snd := by
  simp only [zipExtractPhase]
  split
  · exact stExt_intro
      (by simp [logMessage, delFile, List.prefix_append])
      (by simp [logMessage, delFile])
  · refine stExt_trans ?_ (stExt_run_post_steps env app _)
    exact stExt_intro
      (by simp [logMessage, List.append_assoc, List.prefix_append])
      (by simp [logMessage])

lemma stExt_install_via_zip (env : Env) (app : App) (st : St) :
    stExt st (install_via_zip env app st).snd := by
  simp only [install_via_zip]
  split
  · exact stExt_refl st
  · split
    · exact stExt_intro (by simp [logMessage, List.prefix_append]) (by simp [logMessage])
    · split
      · exact stExt_intro
          (by simp [logMessage, addNet, List.append_assoc, List.prefix_append])
          (by simp [logMessage, addNet])
      · split
        · refine stExt_trans ?_ (stExt_zipExtractPhase env app _ _ _ _)
          exact stExt_intro
            (by simp [logMessage, addNet, setFile, List.append_assoc, List.prefix_append])
            (by simp [logMessage, addNet, setFile])
        · split
          · refine stExt_trans ?_ (stExt_zipExtractPhase env app _ _ _ _)
            exact stExt_intro
              (by simp [logMessage, addNet, setFile, List.append_assoc,
                List.prefix_append])
              (by simp [logMessage, addNet, setFile])
          · exact stExt_intro
              (by simp [logMessage, addNet, setFile, delFile, List.append_assoc,
                List.prefix_append])
              (by simp [logMessage, addNet, setFile, delFile])

lemma stExt_install_via_direct_download (env : Env) (app : App) (st : St) :
    stExt st (install_via_direct_download env app st).snd := by
  simp only [install_via_direct_download]
  split
  · exact stExt_intro (by simp [logMessage, List.prefix_append]) (by simp [logMessage])
  · refine stExt_trans ?_ (stExt_download_and_install env _ _ app _)
    exact stExt_intro (by simp [logMessage, List.prefix_append]) (by simp [logMessage])

lemma stExt_install_via_winget (env : Env) (app : App) (st : St) :
    stExt st (install_via_winget env app st).snd := by
  simp only [install_via_winget]
  split
  · exact stExt_intro (by simp [logMessage, List.prefix_append]) (by simp [logMessage])
  · split
    · split
      · exact stExt_intro
          (by simp [logMessage, addProc, List.append_assoc, List.prefix_append])
          (by simp [logMessage, addProc])
      · exact stExt_intro
          (by simp [logMessage, addProc, List.append_assoc, List.prefix_append])
          (by simp [logMessage, addProc])
    · exact stExt_intro
        (by simp [logMessage, addProc, List.append_assoc, List.prefix_append])
        (by simp [logMessage, addProc])
    · exact stExt_intro
        (by simp [logMessage, addProc, List.append_assoc, List.prefix_append])
        (by simp [logMessage, addProc])

lemma stExt_install_via_github (env : Env) (app : App) (st : St) :
    stExt st (install_via_github env app st).snd := by
  simp only [install_via_github]
  split
  · exact stExt_intro (by simp [logMessage, List.prefix_append]) (by simp [logMessage])
  · split
    · exact stExt_intro
        (by simp [logMessage, addNet, List.append_assoc, List.prefix_append])
        (by simp [logMessage, addNet])
    · split
      · exact stExt_intro
          (by simp [logMessage, addNet, List.append_assoc, List.prefix_append])
          (by simp [logMessage, addNet])
      · refine stExt_trans ?_ (stExt_download_and_install env _ _ app _)
        exact stExt_intro
          (by simp [logMessage, addNet, List.append_assoc, List.prefix_append])
          (by simp [logMessage, addNet])

lemma stExt_dispatchInstall (env : Env) (app : App) (st : St) :
    stExt st (dispatchInstall env app st).snd := by
  simp only [dispatchInstall]
  split
  · exact stExt_install_via_winget env app st
  · split
    · exact stExt_install_via_github env app st
    · split
      · exact stExt_install_via_direct_download env app st
      · split
        · exact stExt_install_via_zip env app st
        · exact stExt_intro (by simp [logMessage, List.prefix_append]) (by simp [logMessage])

lemma stExt_install_single_app (env : Env) (app : App) (st : St) :
    stExt st (install_single_app env app st).snd := by
  simp only [install_single_app]
  have h := stExt_dispatchInstall env app st
  rcases hd : dispatchInstall env app st with ⟨r, st'⟩
  rw [hd] at h
  rcases r with e | b
  · exact stExt_trans h
      (stExt_intro (by simp [logMessage, List.prefix_append]) (by simp [logMessage]))
  · exact h

/-! ### The boolean outcome does not depend on the incoming state

Every branch condition of the install chain is a function of the
environment and the descriptor only, so the returned boolean is the same
from any starting state. -/

lemma postStepsLoop_fst (env : Env) (steps : List PostStep) :
    ∀ st st' : St, (postStepsLoop env steps st).fst = (postStepsLoop env steps st').fst := by
  induction steps with
  | nil => intro st st'; rfl
  | cons s rest ih =>
    intro st st'
    simp only [postStepsLoop]
    split
    · exact ih st st'
    · split
      · split
        · exact ih _ _
        · exact ih _ _
      · rfl
      · rfl

lemma run_post_steps_fst (env : Env) (app : App) (st st' : St) :
    (run_post_steps env app st).fst = (run_post_steps env app st').fst := by
  simp only [run_post_steps]
  split
  · rfl
  · have h12 := postStepsLoop_fst env app.post_steps
      (logMessage st "Running post-installation steps..." "info")
      (logMessage st' "Running post-installation steps..." "info")
    rcases h1 : postStepsLoop env app.post_steps
        (logMessage st "Running post-installation steps..." "info") with ⟨r1, s1⟩
    rcases h2 : postStepsLoop env app.post_steps
        (logMessage st' "Running post-installation steps..." "info") with ⟨r2, s2⟩
    rw [h1, h2] at h12
    simp only at h12
    cases r1 <;> cases r2 <;> simp_all

lemma run_installer_fst (env : Env) (filename : String) (app : App) (st st' : St) :
    (run_installer env filename app st).fst = (run_installer env filename app st').fst := by
  simp only [run_installer]
  split
  · split
    · exact run_post_steps_fst env app _ _
    · rfl
  · rfl
  · rfl

lemma finishInstall_fst (env : Env) (filename : String) (app : App) (st st' : St) :
    (finishInstall env filename app st).fst = (finishInstall env filename app st').fst := by
  simp only [finishInstall]
  split
  · exact run_installer_fst env filename app st st'
  · exact run_post_steps_fst env app _ _

lemma download_and_install_fst (env : Env) (url filename : String) (app : App) (st st' : St) :
    (download_and_install env url filename app st).fst =
      (download_and_install env url filename app st').fst := by
  simp only [download_and_install]
  split
  · rfl
  · split
    · exact finishInstall_fst env filename app _ _
    · split
      · exact finishInstall_fst env filename app _ _
      · rfl

lemma zipExtractPhase_fst (env : Env) (app : App) (filename extract_to : String)
    (content : List Nat) (st st' : St) :
    (zipExtractPhase env app filename extract_to content st).fst =
      (zipExtractPhase env app filename extract_to content st').fst := by
  simp only [zipExtractPhase]
  split
  · rfl
  · exact congrArg Except.ok (run_post_steps_fst env app _ _)

lemma install_via_zip_fst (env : Env) (app : App) (st st' : St) :
    (install_via_zip env app st).fst = (install_via_zip env app st').fst := by
  simp only [install_via_zip]
  split
  · rfl
  · split
    · rfl
    · split
      · rfl
      · split
        · exact zipExtractPhase_fst env app _ _ _ _ _
        · split
          · exact zipExtractPhase_fst env app _ _ _ _ _
          · rfl

lemma install_via_direct_download_fst (env : Env) (app : App) (st st' : St) :
    (install_via_direct_download env app st).fst =
      (install_via_direct_download env app st').fst := by
  simp only [install_via_direct_download]
  split
  · rfl
  · exact download_and_install_fst env _ _ app _ _

lemma install_via_winget_fst (env : Env) (app : App) (st st' : St) :
    (install_via_winget env app st).fst = (install_via_winget env app st').fst := by
  simp only [install_via_winget]
  split
  · rfl
  · split
    · split
      · rfl
      · rfl
    · rfl
    · rfl

lemma install_via_github_fst (env : Env) (app : App) (st st' : St) :
    (install_via_github env app st).fst = (install_via_github env app st').fst := by
  simp only [install_via_github]
  split
  · rfl
  · split
    · rfl
    · split
      · rfl
      · exact download_and_install_fst env _ _ app _ _

lemma dispatchInstall_fst (env : Env) (app : App) (st st' : St) :
    (dispatchInstall env app st).fst = (dispatchInstall env app st').fst := by
  simp only [dispatchInstall]
  split
  · exact congrArg Except.ok (install_via_winget_fst env app st st')
  · split
    · exact congrArg Except.ok (install_via_github_fst env app st st')
    · split
      · exact congrArg Except.ok (install_via_direct_download_fst env app st st')
      · split
        · exact install_via_zip_fst env app st st'
        · rfl

lemma install_single_app_fst (env : Env) (app : App) (st st' : St) :
    (install_single_app env app st).fst = (install_single_app env app st').fst := by
  simp only [install_single_app]
  have h12 := dispatchInstall_fst env app st st'
  rcases h1 : dispatchInstall env app st with ⟨r1, s1⟩
  rcases h2 : dispatchInstall env app st' with ⟨r2, s2⟩
  rw [h1, h2] at h12
  simp only at h12
  cases r1 <;> cases r2 <;> simp_all

/-! ### Batch-loop lemmas -/

lemma countP_ext {α : Type} (p q : α → Bool) (l : List α)
    (h : ∀ a ∈ l, p a = q a) : l.countP p = l.countP q := by
  induction l with
  | nil => rfl
  | cons a rest ih =>
    simp only [List.countP_cons, h a (by simp)]
    rw [ih (fun a ha => h a (by simp [ha]))]

@[simp] lemma preInstallState_progress (app : App) (total completed : Nat) (st : St) :
    (preInstallState app total completed st).progress = st.progress ++ [(completed, total)] := by
  simp [preInstallState, pushStatus, pushProgress, logMessage]

@[simp] lemma preInstallState_log (app : App) (total completed : Nat) (st : St) :
    (preInstallState app total completed st).log = st.log ++
      [⟨"info", sepLine1⟩, ⟨"info", "Installing: " ++ app.appName.getD "Unknown"⟩,
       ⟨"info", sepLine2⟩] := by
  simp [preInstallState, pushStatus, pushProgress, logMessage]

@[simp] lemma tallyState_progress (app : App) (b : Bool) (total completed2 : Nat) (st : St) :
    (tallyState app b total completed2 st).progress = st.progress ++ [(completed2, total)] := by
  cases b <;> simp [tallyState, pushProgress, logMessage]

@[simp] lemma tallyState_log (app : App) (b : Bool) (total completed2 : Nat) (st : St) :
    (tallyState app b total completed2 st).log = st.log ++
      [if b then ⟨"success", "✓ " ++ app.appName.getD "Unknown" ++ " installed successfully"⟩
       else ⟨"error", "✗ Failed to install " ++ app.appName.getD "Unknown"⟩] := by
  cases b <;> simp [tallyState, pushProgress, logMessage]

/-- The running tally returned by the batch loop is the starting tally
plus the number of descriptors whose install returned `True` (the
outcome of each is state-independent, so it is measured at the initial
state). -/
lemma install_apps_loop_fst (env : Env) :
    ∀ (apps : List App) (total completed : Nat) (st : St),
      (install_apps_loop env apps total completed st).fst
        = completed + apps.countP (fun a => (install_single_app env a st).fst) := by
  intro apps
  induction apps with
  | nil => intro total completed st; simp [install_apps_loop]
  | cons app rest ih =>
    intro total completed st
    simp only [install_apps_loop]
    rw [ih]
    rw [countP_ext _ (fun a => (install_single_app env a st).fst) rest
      (fun a _ => install_single_app_fst env a _ st)]
    rw [List.countP_cons,
      install_single_app_fst env app (preInstallState app total completed st) st]
    cases hb : (install_single_app env app st).fst <;> simp [hb] <;> try omega

/-- The batch loop reports progress exactly twice per descriptor. -/
lemma install_apps_loop_progress_len (env : Env) :
    ∀ (apps : List App) (total completed : Nat) (st : St),
      (install_apps_loop env apps total completed st).snd.progress.length
        = st.progress.length + 2 * apps.length := by
  intro apps
  induction apps with
  | nil => intro total completed st; simp [install_apps_loop]
  | cons app rest ih =>
    intro total completed st
    simp only [install_apps_loop]
    rw [ih]
    have h1 := (stExt_install_single_app env app (preInstallState app total completed st)).2
    simp [h1, List.length_append]
    omega

/-- The last progress report of a non-empty batch carries the final tally
and the total. -/
lemma install_apps_loop_last (env : Env) :
    ∀ (apps : List App) (total completed : Nat) (st : St), apps ≠ [] →
      (install_apps_loop env apps total completed st).snd.progress.getLast?
        = some ((install_apps_loop env apps total completed st).fst, total) := by
  intro apps
  induction apps with
  | nil => intro total completed st h; exact absurd rfl h
  | cons app rest ih =>
    intro total completed st _
    rcases hrest : rest with _ | ⟨b, brest⟩
    · simp only [install_apps_loop]
      have h1 := (stExt_install_single_app env app (preInstallState app total completed st)).2
      simp [h1, List.getLast?_concat]
    · rw [← hrest]
      simp only [install_apps_loop]
      exact ih total _ _ (by simp [hrest])

/-- The batch loop appends, for every descriptor in order, a log segment
containing that descriptor's `Installing:` banner line. -/
lemma install_apps_loop_log (env : Env) :
    ∀ (apps : List App) (total completed : Nat) (st : St),
      ∃ d, (install_apps_loop env apps total completed st).snd.log = st.log ++ d
        ∧ List.Sublist
            (apps.map (fun a => LogEntry.mk "info" ("Installing: " ++ a.appName.getD "Unknown")))
            d := by
  intro apps
  induction apps with
  | nil =>
    intro total completed st
    exact ⟨[], by simp [install_apps_loop], by simp⟩
  | cons app rest ih =>
    intro total completed st
    simp only [install_apps_loop]
    obtain ⟨d2, hd2, hsub2⟩ := ih total
      (if (install_single_app env app (preInstallState app total completed st)).fst then
        completed + 1 else completed)
      (tallyState app (install_single_app env app (preInstallState app total completed st)).fst
        total
        (if (install_single_app env app (preInstallState app total completed st)).fst then
          completed + 1 else completed)
        (install_single_app env app (preInstallState app total completed st)).snd)
    obtain ⟨dI, hdI⟩ :=
      (stExt_install_single_app env app (preInstallState app total completed st)).1
    refine ⟨⟨"info", sepLine1⟩ :: ⟨"info", "Installing: " ++ app.appName.getD "Unknown"⟩ ::
      ⟨"info", sepLine2⟩ :: (dI ++
        ((if (install_single_app env app (preInstallState app total completed st)).fst then
            (⟨"success", "✓ " ++ app.appName.getD "Unknown" ++ " installed successfully"⟩ :
              LogEntry)
          else ⟨"error", "✗ Failed to install " ++ app.appName.getD "Unknown"⟩) :: d2)), ?_, ?_⟩
    · rw [hd2, tallyState_log, ← hdI, preInstallState_log]
      simp [List.append_assoc]
    · simp only [List.map_cons]
      refine List.Sublist.cons _ (List.Sublist.cons₂ _ ?_)
      refine List.Sublist.cons _ ?_
      refine hsub2.trans ?_
      refine List.Sublist.trans
        (List.Sublist.cons
          (if (install_single_app env app (preInstallState app total completed st)).fst then
            (⟨"success", "✓ " ++ app.appName.getD "Unknown" ++ " installed successfully"⟩ :
              LogEntry)
          else ⟨"error", "✗ Failed to install " ++ app.appName.getD "Unknown"⟩)
          (List.Sublist.refl d2)) ?_
      exact List.sublist_append_right dI _

/-! ### Extraction lookup lemmas -/

lemma lookupAssoc_extractAll_notin (et k : String) (entries : List (String × List Nat)) :
    ∀ st : St, (∀ e ∈ entries, extractPath et ++ "/" ++ e.fst ≠ k) →
      lookupAssoc (extractAll st et entries).extracted k = lookupAssoc st.extracted k := by
  induction entries with
  | nil => intro st _; rfl
  | cons e rest ih =>
    intro st h
    simp only [extractAll, List.foldl] at ih ⊢
    rw [ih _ (fun x hx => h x (by simp [hx]))]
    exact lookupAssoc_setAssoc_ne _ _ _ _ (fun hk => (h e (by simp)) hk.symm)

lemma lookupAssoc_extractAll_mem (et : String) (entries : List (String × List Nat)) :
    ∀ (st : St) (p : String × List Nat), p ∈ entries →
      (entries.map (fun e => extractPath et ++ "/" ++ e.fst)).Nodup →
      lookupAssoc (extractAll st et entries).extracted (extractPath et ++ "/" ++ p.fst)
        = some p.snd := by
  induction entries with
  | nil => intro st p hp _; simp at hp
  | cons e rest ih =>
    intro st p hp hnd
    simp only [List.map_cons, List.nodup_cons] at hnd
    rcases List.mem_cons.mp hp with rfl | hp'
    · simp only [extractAll, List.foldl]
      have hrest : ∀ x ∈ rest, extractPath et ++ "/" ++ x.fst ≠ extractPath et ++ "/" ++ p.fst := by
        intro x hx hkx
        exact hnd.1 (hkx ▸ List.mem_map_of_mem (fun y => extractPath et ++ "/" ++ y.fst) hx)
      have := lookupAssoc_extractAll_notin et (extractPath et ++ "/" ++ p.fst) rest
        { st with extracted := setAssoc st.extracted (extractPath et ++ "/" ++ p.fst) p.snd }
        hrest
      simp only [extractAll] at this
      rw [this]
      exact lookupAssoc_setAssoc_self _ _ _
    · exact ih _ p hp' hnd.2

/-! ### Supporting lemmas for the claim theorems -/

lemma lookupAssoc_delAssoc {α : Type} (m : List (String × α)) (k : String) :
    lookupAssoc (delAssoc m k) k = none := by
  induction m with
  | nil => rfl
  | cons p rest ih =>
    simp only [delAssoc, List.filter_cons] at ih ⊢
    by_cases h : p.fst == k
    · simp [h, ih]
    · simp [h, lookupAssoc, ih]

@[simp] lemma pyStrip_empty_isEmpty : (pyStrip "").isEmpty = true := by decide

/-- When every (non-skipped) post-step's process completes, the loop never
hits its exception branch. -/
lemma postStepsLoop_all_exited (env : Env) (steps : List PostStep) :
    ∀ st : St,
      (∀ s ∈ steps, (s.script.getD "").isEmpty = false →
        isExited (env.run_process (psCmd (s.script.getD "")) 120) = true) →
      ∃ st2, postStepsLoop env steps st = (Except.ok (), st2) := by
  induction steps with
  | nil => intro st _; exact ⟨st, rfl⟩
  | cons s rest ih =>
    intro st h
    simp only [postStepsLoop]
    split
    · exact ih st (fun x hx => h x (by simp [hx]))
    case _ hne =>
      have hex := h s (List.mem_cons_self s rest) (by simpa using hne)
      rcases hr : env.run_process (psCmd (s.script.getD "")) 120 with _ | m | ⟨code, out, err⟩
      · rw [hr] at hex
        exact absurd hex (by simp [isExited])
      · rw [hr] at hex
        exact absurd hex (by simp [isExited])
      · simp only [hr]
        split
        · exact ih _ (fun x hx => h x (by simp [hx]))
        · exact ih _ (fun x hx => h x (by simp [hx]))

/-- When every (non-skipped) post-step's process completes, each step that
exits non-zero leaves its warning line in the final log. -/
lemma postStepsLoop_warn (env : Env) (steps : List PostStep) :
    ∀ st : St,
      (∀ s ∈ steps, (s.script.getD "").isEmpty = false →
        isExited (env.run_process (psCmd (s.script.getD "")) 120) = true) →
      ∀ s ∈ steps, ∀ (code : Int) (out err : String),
        (s.script.getD "").isEmpty = false →
        env.run_process (psCmd (s.script.getD "")) 120 = ProcResult.exited code out err →
        code ≠ 0 →
        (⟨"warning", "Step \x27" ++ s.stepName.getD "Unknown" ++ "\x27 failed: " ++ err⟩ :
          LogEntry) ∈ (postStepsLoop env steps st).snd.log := by
  induction steps with
  | nil => intro st _ s hs; simp at hs
  | cons s0 rest ih =>
    intro st hall s hs code out err hne hr hcode
    rcases List.mem_cons.mp hs with rfl | hs'
    · simp only [postStepsLoop]
      split
      case _ he => rw [hne] at he; simp at he
      · rw [hr]
        simp only
        have hc0 : (code == 0) = false := by simpa using hcode
        rw [hc0]
        simp only [if_false, Bool.false_eq_true]
        refine stExt_mem (stExt_postStepsLoop env rest _) ?_
        simp [logMessage, addProc]
    · simp only [postStepsLoop]
      split
      · exact ih st (fun x hx hxe => hall x (by simp [hx]) hxe) s hs' code out err hne hr hcode
      case _ hne0 =>
        have h0 := hall s0 (by simp) (by simpa using hne0)
        rcases hr0 : env.run_process (psCmd (s0.script.getD "")) 120 with _ | m | ⟨c0, o0, e0⟩
        · rw [hr0] at h0; simp [isExited] at h0
        · rw [hr0] at h0; simp [isExited] at h0
        · simp only [hr0]
          split
          · exact ih _ (fun x hx hxe => hall x (by simp [hx]) hxe) s hs' code out err hne hr hcode
          · exact ih _ (fun x hx hxe => hall x (by simp [hx]) hxe) s hs' code out err hne hr hcode

/-- A successful zip install is `run_post_steps` evaluated at the state
holding the downloaded artifact and the extracted members. -/
lemma install_zip_run (env : Env) (app : App) (u fn : String) (content : List Nat)
    (entries : List (String × List Nat))
    (ht : app.install_type = some "zip") (hu : app.url = some u) (hf : app.filename = some fn)
    (hue : u.isEmpty = false) (hfe : fn.isEmpty = false) (hck : app.checksum = none)
    (hdl : env.http_get u = DlResult.ok content) (hz : env.parseZip content = some entries)
    (st : St) :
    install_single_app env app st = run_post_steps env app
      (logMessage
        (extractAll
          (logMessage
            (setFile (addNet (logMessage st ("Downloading zip: " ++ fn) "info") u)
              (dlPath fn) content)
            ("Downloaded zip to: " ++ dlPath fn ++ " (" ++ toString content.length ++ " bytes)")
            "info")
          (app.extract_to.getD (pyReplace fn ".zip" "")) entries)
        ("Extracted to: " ++ extractPath (app.extract_to.getD (pyReplace fn ".zip" ""))) "info") := by
  have hd : dispatchInstall env app st = install_via_zip env app st := by
    simp [dispatchInstall, ht]
  have hz2 : install_via_zip env app st =
      (Except.ok (run_post_steps env app
        (logMessage
          (extractAll
            (logMessage
              (setFile (addNet (logMessage st ("Downloading zip: " ++ fn) "info") u)
                (dlPath fn) content)
              ("Downloaded zip to: " ++ dlPath fn ++ " (" ++ toString content.length ++
                " bytes)") "info")
            (app.extract_to.getD (pyReplace fn ".zip" "")) entries)
          ("Extracted to: " ++ extractPath (app.extract_to.getD (pyReplace fn ".zip" "")))
          "info")).fst,
       (run_post_steps env app
        (logMessage
          (extractAll
            (logMessage
              (setFile (addNet (logMessage st ("Downloading zip: " ++ fn) "info") u)
                (dlPath fn) content)
              ("Downloaded zip to: " ++ dlPath fn ++ " (" ++ toString content.length ++
                " bytes)") "info")
            (app.extract_to.getD (pyReplace fn ".zip" "")) entries)
          ("Extracted to: " ++ extractPath (app.extract_to.getD (pyReplace fn ".zip" "")))
          "info")).snd) := by
    simp [install_via_zip, zipExtractPhase, hu, hf, hck, hdl, hz, pyTruthy, hue, hfe]
  rw [install_single_app, hd, hz2]

/-- `zipExtractPhase` always returns through `Except.ok` (both its
branches are completed computations, not raised exceptions). -/
lemma zipExtractPhase_ne_error (env : Env) (app : App) (fn et : String)
    (content : List Nat) (st : St) (e : String) (st1 : St) :
    zipExtractPhase env app fn et content st ≠ (Except.error e, st1) := by
  simp only [zipExtractPhase]
  split <;> simp

/-! ### Claim theorems -/

/-- C2: every failure of any kind is caught inside the dispatcher and
converted to `False` plus log lines: whenever the dispatch body raises
(`Except.error`), the public `install_single_app` returns `(false, ·)`
with an `Error installing app:` log line appended; when the body returns
normally the boolean is passed through unchanged; and the only raising
path in the model is the zip strategy evaluated on a descriptor with no
`filename` (main.py line 573). -/
theorem claim_C2_no_exception_escapes (env : Env) (app : App) (st : St) :
    (∀ (e : String) (st1 : St), dispatchInstall env app st = (Except.error e, st1) →
      install_single_app env app st
        = (false, logMessage st1 ("Error installing app: " ++ e) "error"))
    ∧ (∀ (b : Bool) (st1 : St), dispatchInstall env app st = (Except.ok b, st1) →
      install_single_app env app st = (b, st1))
    ∧ (∀ (e : String) (st1 : St), dispatchInstall env app st = (Except.error e, st1) →
      app.install_type = some "zip" ∧ app.filename = none) := by
  refine ⟨?_, ?_, ?_⟩
  · intro e st1 h
    simp [install_single_app, h]
  · intro b st1 h
    simp [install_single_app, h]
  · intro e st1 h
    simp only [dispatchInstall] at h
    split at h
    · simp at h
    · split at h
      · simp at h
      · split at h
        · simp at h
        · split at h
          case _ hzip =>
            have hty : app.install_type = some "zip" := by
              rcases hta : app.install_type with _ | s
              · rw [hta] at hzip
                simp at hzip
              · rw [hta] at hzip
                simp only [Option.getD] at hzip
                have hs : s = "zip" := by simpa using hzip
                rw [hs]
            refine ⟨hty, ?_⟩
            rcases hfn : app.filename with _ | fn
            · rfl
            · exfalso
              simp only [install_via_zip, hfn] at h
              split at h
              · simp at h
              · split at h
                · simp at h
                · split at h
                  · exact absurd h (zipExtractPhase_ne_error _ _ _ _ _ _ _ _)
                  · split at h
                    · exact absurd h (zipExtractPhase_ne_error _ _ _ _ _ _ _ _)
                    · simp at h
          · simp at h

/-- C2 witness: a zip descriptor with no `filename` raises out of the
dispatch body; the public call converts it to `False` plus the error log
line. -/
theorem claim_C2_witness :
    install_single_app envW appZipNoFilename stEmpty
      = (false, logMessage stEmpty
          ("Error installing app: " ++
            "\x27NoneType\x27 object has no attribute \x27replace\x27") "error") :=
  (claim_C2_no_exception_escapes envW appZipNoFilename stEmpty).1
    "\x27NoneType\x27 object has no attribute \x27replace\x27" stEmpty rfl

/-- C5: a descriptor missing the required field of its strategy fails with
`False` and performs no network request and no process invocation. -/
theorem claim_C5_missing_field_no_io (env : Env) (app : App) (st : St) :
    (app.install_type = some "winget" → pyTruthy app.winget_id = false →
      (install_single_app env app st).fst = false
      ∧ (install_single_app env app st).snd.netCalls = st.netCalls
      ∧ (install_single_app env app st).snd.procs = st.procs)
    ∧ (app.install_type = some "github" →
      pyTruthy app.github_repo = false ∨ pyTruthy app.github_asset = false →
      (install_single_app env app st).fst = false
      ∧ (install_single_app env app st).snd.netCalls = st.netCalls
      ∧ (install_single_app env app st).snd.procs = st.procs)
    ∧ (app.install_type = some "exe" ∨ app.install_type = some "msi" →
      pyTruthy app.url = false ∨ pyTruthy app.filename = false →
      (install_single_app env app st).fst = false
      ∧ (install_single_app env app st).snd.netCalls = st.netCalls
      ∧ (install_single_app env app st).snd.procs = st.procs)
    ∧ (app.install_type = some "zip" →
      pyTruthy app.url = false ∨ pyTruthy app.filename = false →
      (install_single_app env app st).fst = false
      ∧ (install_single_app env app st).snd.netCalls = st.netCalls
      ∧ (install_single_app env app st).snd.procs = st.procs) := by
  refine ⟨?_, ?_, ?_, ?_⟩
  · intro ht hw
    simp [install_single_app, dispatchInstall, install_via_winget, ht, hw, logMessage]
  · intro ht hd
    rcases hd with h | h <;>
      simp [install_single_app, dispatchInstall, install_via_github, ht, h, logMessage]
  · intro ht hd
    rcases ht with ht | ht <;> rcases hd with h | h <;>
      simp [install_single_app, dispatchInstall, install_via_direct_download, ht, h,
        logMessage]
  · intro ht hd
    rcases hf : app.filename with _ | fn
    · simp [install_single_app, dispatchInstall, install_via_zip, ht, hf, logMessage]
    · rcases hd with h | h
      · simp [install_single_app, dispatchInstall, install_via_zip, ht, hf, h, logMessage]
      · rw [hf] at h
        have h2 : fn.isEmpty = true := by simpa [pyTruthy] using h
        simp [install_single_app, dispatchInstall, install_via_zip, ht, hf, h2, logMessage]

/-- C5 witness: a winget descriptor with no `winget_id` fails without any
network request or process invocation. -/
theorem claim_C5_witness :
    (install_single_app envW appNoWingetId stEmpty).fst = false
    ∧ (install_single_app envW appNoWingetId stEmpty).snd.netCalls = ([] : List String)
    ∧ (install_single_app envW appNoWingetId stEmpty).snd.procs = ([] : List (List String)) :=
  (claim_C5_missing_field_no_io envW appNoWingetId stEmpty).1 rfl rfl

/-- C6: a winget descriptor never invokes post-steps: when the package
manager exits 0, install returns `True` and the only process spawned is
the winget command itself, whatever `post_steps` holds. -/
theorem claim_C6_winget_never_runs_post_steps (env : Env) (app : App) (st : St)
    (w out err : String)
    (ht : app.install_type = some "winget") (hw : app.winget_id = some w)
    (hw2 : w.isEmpty = false)
    (hp : env.run_process (wingetCmd w) 300 = ProcResult.exited 0 out err) :
    (install_single_app env app st).fst = true
    ∧ (install_single_app env app st).snd.procs = st.procs ++ [wingetCmd w] := by
  constructor <;>
    simp [install_single_app, dispatchInstall, install_via_winget, ht, hw, pyTruthy, hw2,
      hp, logMessage, addProc]

/-- C6 witness: a winget descriptor with a non-empty `post_steps` list
still spawns only the winget command. -/
theorem claim_C6_witness :
    (install_single_app envW appWingetPost stEmpty).fst = true
    ∧ (install_single_app envW appWingetPost stEmpty).snd.procs = [wingetCmd "Pkg.One"] :=
  claim_C6_winget_never_runs_post_steps envW appWingetPost stEmpty "Pkg.One" "" ""
    rfl rfl (by decide) rfl

/-- C7: an unrecognized `install_type` (exact, case-sensitive match) fails
immediately with a single error log line citing the type and no other
effect, does not change the batch tally, and the batch still processes
the remaining descriptors. -/
theorem claim_C7_unknown_type_batch_continues
    (env : Env) (app : App) (st : St) (rest : List App)
    (ht : app.install_type.getD "unknown"
        ∉ (["winget", "github", "exe", "msi", "zip"] : List String)) :
    install_single_app env app st
        = (false,
           logMessage st ("Unknown install type: " ++ app.install_type.getD "unknown") "error")
    ∧ (install_apps env (app :: rest) st).fst = (install_apps env rest st).fst
    ∧ (install_apps env (app :: rest) st).snd.fst = rest.length + 1 := by
  have h1 : (app.install_type.getD "unknown" == "winget") = false := by
    simp only [beq_eq_false_iff_ne]
    intro he; exact ht (by simp [he])
  have h2 : (app.install_type.getD "unknown" == "github") = false := by
    simp only [beq_eq_false_iff_ne]
    intro he; exact ht (by simp [he])
  have h3 : (app.install_type.getD "unknown" == "exe") = false := by
    simp only [beq_eq_false_iff_ne]
    intro he; exact ht (by simp [he])
  have h4 : (app.install_type.getD "unknown" == "msi") = false := by
    simp only [beq_eq_false_iff_ne]
    intro he; exact ht (by simp [he])
  have h5 : (app.install_type.getD "unknown" == "zip") = false := by
    simp only [beq_eq_false_iff_ne]
    intro he; exact ht (by simp [he])
  have hone : install_single_app env app st
      = (false,
         logMessage st ("Unknown install type: " ++ app.install_type.getD "unknown") "error") := by
    simp [install_single_app, dispatchInstall, h1, h2, h3, h4, h5]
  refine ⟨hone, ?_, by simp [install_apps]⟩
  have hfst : (install_single_app env app st).fst = false := by rw [hone]
  simp only [install_apps]
  rw [install_apps_loop_fst, install_apps_loop_fst]
  simp [List.countP_cons, hfst]

/-- C7 witness: the `unknown_strategy` descriptor fails with only the
error log line, and a following winget descriptor is still processed and
counted. -/
theorem claim_C7_witness :
    install_single_app envW appUnknown stEmpty
      = (false, logMessage stEmpty "Unknown install type: unknown_strategy" "error")
    ∧ (install_apps envW (appUnknown :: [appWingetOk]) stEmpty).fst
      = (install_apps envW [appWingetOk] stEmpty).fst := by
  have h := claim_C7_unknown_type_batch_continues envW appUnknown stEmpty [appWingetOk]
    (by decide)
  exact ⟨h.1, h.2.1⟩

/-- After the process run, `run_installer` has spawned exactly the
installer command, and (with no post-steps) returns `True` exactly when
that process exited 0. -/
lemma run_installer_spec (env : Env) (filename : String) (app : App) (st : St)
    (hps : app.post_steps = []) :
    (run_installer env filename app st).snd.procs = st.procs ++ [installerCmd filename]
    ∧ (run_installer env filename app st).fst
        = isExitZero (env.run_process (installerCmd filename) 600) := by
  rcases hr : env.run_process (installerCmd filename) 600 with _ | m | ⟨code, out, err⟩
  · constructor <;> simp [run_installer, hr, isExitZero, logMessage, addProc]
  · constructor <;> simp [run_installer, hr, isExitZero, logMessage, addProc]
  · by_cases hc : (code == 0) = true
    · constructor <;>
        simp [run_installer, hr, hc, isExitZero, run_post_steps, hps, logMessage, addProc]
    · have hc' : (code == 0) = false := by simpa using hc
      by_cases he : err.isEmpty = true
      · constructor <;>
          simp [run_installer, hr, hc', he, isExitZero, logMessage, addProc]
      · have he' : err.isEmpty = false := by simpa using he
        constructor <;>
          simp [run_installer, hr, hc', he', isExitZero, logMessage, addProc]

/-- C1: for a descriptor with a non-empty (stripped) checksum, a digest
mismatch under case-insensitive comparison makes the install fail, the
downloaded artifact is deleted before returning, and no installer process
and no archive extraction happens. Stated for the generic download path
(used by the `exe`/`msi`/`github` strategies) and, lifted to the public
dispatch, for the `zip` and `exe`/`msi` strategies. -/
theorem claim_C1_checksum_mismatch_deletes_and_fails
    (env : Env) (app : App) (st : St) (content : List Nat)
    (hck : (pyStrip (app.checksum.getD "")).isEmpty = false)
    (hmis : (pyLower (env.sha256hex content) == pyLower (pyStrip (app.checksum.getD "")))
        = false) :
    (∀ url filename, env.http_get url = DlResult.ok content →
      (download_and_install env url filename app st).fst = false
      ∧ lookupAssoc (download_and_install env url filename app st).snd.files (dlPath filename)
          = none
      ∧ (download_and_install env url filename app st).snd.procs = st.procs
      ∧ (download_and_install env url filename app st).snd.extracted = st.extracted)
    ∧ (∀ u fn, app.install_type = some "zip" → app.url = some u → app.filename = some fn →
        u.isEmpty = false → fn.isEmpty = false →
        env.http_get u = DlResult.ok content →
        (install_single_app env app st).fst = false
        ∧ lookupAssoc (install_single_app env app st).snd.files (dlPath fn) = none
        ∧ (install_single_app env app st).snd.procs = st.procs
        ∧ (install_single_app env app st).snd.extracted = st.extracted)
    ∧ (∀ u fn, (app.install_type = some "exe" ∨ app.install_type = some "msi") →
        app.url = some u → app.filename = some fn →
        u.isEmpty = false → fn.isEmpty = false →
        env.http_get u = DlResult.ok content →
        (install_single_app env app st).fst = false
        ∧ lookupAssoc (install_single_app env app st).snd.files (dlPath fn) = none
        ∧ (install_single_app env app st).snd.procs = st.procs
        ∧ (install_single_app env app st).snd.extracted = st.extracted) := by
  refine ⟨?_, ?_, ?_⟩
  · intro url filename hdl
    refine ⟨?_, ?_, ?_, ?_⟩ <;>
      simp [download_and_install, hdl, hck, hmis, logMessage, addNet, setFile, delFile,
        lookupAssoc_delAssoc]
  · intro u fn ht hu hf hue hfe hdl
    refine ⟨?_, ?_, ?_, ?_⟩ <;>
      simp [install_single_app, dispatchInstall, install_via_zip, ht, hu, hf, pyTruthy,
        hue, hfe, hdl, hck, hmis, logMessage, addNet, setFile, delFile,
        lookupAssoc_delAssoc]
  · intro u fn ht hu hf hue hfe hdl
    rcases ht with ht | ht <;>
    · refine ⟨?_, ?_, ?_, ?_⟩ <;>
        simp [install_single_app, dispatchInstall, install_via_direct_download,
          download_and_install, ht, hu, hf, pyTruthy, hue, hfe, hdl, hck, hmis,
          logMessage, addNet, setFile, delFile, lookupAssoc_delAssoc]

/-- C1 witness: the zip descriptor with checksum `"bb"` against digest
`"aa"` fails, its artifact is gone, and no process ran and nothing was
extracted. -/
theorem claim_C1_witness :
    (install_single_app envW appZipBad stEmpty).fst = false
    ∧ lookupAssoc (install_single_app envW appZipBad stEmpty).snd.files (dlPath "a.zip")
        = none
    ∧ (install_single_app envW appZipBad stEmpty).snd.procs = ([] : List (List String))
    ∧ (install_single_app envW appZipBad stEmpty).snd.extracted
        = ([] : List (String × List Nat)) :=
  (claim_C1_checksum_mismatch_deletes_and_fails envW appZipBad stEmpty [1]
    (by decide) (by decide)).2.1 "u" "a.zip" rfl rfl rfl (by decide) (by decide) rfl

/-- C10: after a successful (and, when requested, verified) download,
whether an installer process runs is decided solely by the destination
file name's extension — the descriptor's type tag is arbitrary here. A
name ending in `.exe` or `.msi` spawns exactly the installer command
(`msiexec /i <path> /quiet /norestart` when the lower-cased suffix is
`.msi`, else `<path> /S` — that is `installerCmd`), succeeding exactly
when it exits 0; any other name spawns no process at all and install
returns `True` on the download alone. -/
theorem claim_C10_extension_decides_execution (env : Env) (url filename : String)
    (app : App) (st : St) (content : List Nat)
    (hdl : env.http_get url = DlResult.ok content)
    (hok : (pyStrip (app.checksum.getD "")).isEmpty = true
        ∨ (pyLower (env.sha256hex content) == pyLower (pyStrip (app.checksum.getD "")))
            = true)
    (hps : app.post_steps = []) :
    ((pyEndsWith filename ".exe" || pyEndsWith filename ".msi") = true →
      (download_and_install env url filename app st).snd.procs
          = st.procs ++ [installerCmd filename]
      ∧ (download_and_install env url filename app st).fst
          = isExitZero (env.run_process (installerCmd filename) 600))
    ∧ ((pyEndsWith filename ".exe" || pyEndsWith filename ".msi") = false →
      (download_and_install env url filename app st).snd.procs = st.procs
      ∧ (download_and_install env url filename app st).fst = true) := by
  have hkey : ∀ st0 : St,
      ((pyEndsWith filename ".exe" || pyEndsWith filename ".msi") = true →
        (finishInstall env filename app st0).snd.procs = st0.procs ++ [installerCmd filename]
        ∧ (finishInstall env filename app st0).fst
            = isExitZero (env.run_process (installerCmd filename) 600))
      ∧ ((pyEndsWith filename ".exe" || pyEndsWith filename ".msi") = false →
        (finishInstall env filename app st0).snd.procs = st0.procs
        ∧ (finishInstall env filename app st0).fst = true) := by
    intro st0
    constructor
    · intro hext
      have h := run_installer_spec env filename app st0 hps
      constructor
      · simpa [finishInstall, hext] using h.1
      · simpa [finishInstall, hext] using h.2
    · intro hext
      constructor
      · simp [finishInstall, hext, run_post_steps, hps, logMessage]
      · simp [finishInstall, hext, run_post_steps, hps]
  by_cases hck : (pyStrip (app.checksum.getD "")).isEmpty = true
  · have hred : download_and_install env url filename app st
        = finishInstall env filename app
            (logMessage
              (setFile (addNet (logMessage st ("Downloading from: " ++ url) "info") url)
                (dlPath filename) content)
              ("Download completed: " ++ dlPath filename ++ " (" ++
                toString content.length ++ " bytes)") "info") := by
      simp [download_and_install, hdl, hck]
    constructor
    · intro hext
      rw [hred]
      constructor
      · rw [((hkey _).1 hext).1]
        simp [logMessage, setFile, addNet]
      · rw [((hkey _).1 hext).2]
    · intro hext
      rw [hred]
      constructor
      · rw [((hkey _).2 hext).1]
        simp [logMessage, setFile, addNet]
      · rw [((hkey _).2 hext).2]
  · have hck' : (pyStrip (app.checksum.getD "")).isEmpty = false := by simpa using hck
    have hv : (pyLower (env.sha256hex content)
        == pyLower (pyStrip (app.checksum.getD ""))) = true := by
      rcases hok with h | h
      · rw [h] at hck'; cases hck'
      · exact h
    have hred : download_and_install env url filename app st
        = finishInstall env filename app
            (logMessage
              (logMessage
                (setFile
                  (logMessage (addNet (logMessage st ("Downloading from: " ++ url) "info") url)
                    ("Will verify checksum: " ++ pyTake (pyStrip (app.checksum.getD "")) 16 ++
                      "...") "info")
                  (dlPath filename) content)
                ("Download completed: " ++ dlPath filename ++ " (" ++
                  toString content.length ++ " bytes)") "info")
              "Checksum verification passed" "success") := by
      simp [download_and_install, hdl, hck', hv]
    constructor
    · intro hext
      rw [hred]
      constructor
      · rw [((hkey _).1 hext).1]
        simp [logMessage, setFile, addNet]
      · rw [((hkey _).1 hext).2]
    · intro hext
      rw [hred]
      constructor
      · rw [((hkey _).2 hext).1]
        simp [logMessage, setFile, addNet]
      · rw [((hkey _).2 hext).2]

/-- C10 witness: the destination name `setup.exe` (on a descriptor with no
type tag at all) spawns exactly the installer command and succeeds since
the process exits 0. -/
theorem claim_C10_witness :
    (download_and_install envW "u" "setup.exe" appPlain stEmpty).snd.procs
        = [installerCmd "setup.exe"]
    ∧ (download_and_install envW "u" "setup.exe" appPlain stEmpty).fst
        = isExitZero (envW.run_process (installerCmd "setup.exe") 600) :=
  (claim_C10_extension_decides_execution envW "u" "setup.exe" appPlain stEmpty [1]
    rfl (Or.inl (by decide)) rfl).1 (by decide)

/-- C3 counterexample: a zip descriptor whose download and extraction
succeed (the member `f ↦ [1]` IS extracted) but whose single post-step's
process raises `subprocess.TimeoutExpired` — `install` returns `False`,
refuting "no outcome of any post-step can make install return False". -/
theorem claim_C3_counterexample :
    (install_single_app envC3 appC3 stEmpty).fst = false
    ∧ lookupAssoc (install_single_app envC3 appC3 stEmpty).snd.extracted
        (extractPath "a" ++ "/" ++ "f") = some [1]
    ∧ envC3.run_process (psCmd "x") 120 = ProcResult.timeout :=
  ⟨by decide, by decide, by decide⟩

/-- C3 amended: after a successful primary install action, a post-step
whose process COMPLETES never flips install to `False` — a non-zero exit
is logged as a warning naming the step and install still returns `True`;
but a post-step invocation that raises (e.g. times out) makes
`run_post_steps`, and with it install, return `False` (see the
counterexample). Stated as: when every non-skipped post-step's process
completes, `run_post_steps` returns `True` and each non-zero step has its
warning line in the log; lifted to a successful zip install and to a
successful installer run. -/
theorem claim_C3_amended_completed_post_steps_only_warn
    (env : Env) (app : App) (st : St)
    (hall : ∀ s ∈ app.post_steps, (s.script.getD "").isEmpty = false →
      isExited (env.run_process (psCmd (s.script.getD "")) 120) = true) :
    (run_post_steps env app st).fst = true
    ∧ (∀ s ∈ app.post_steps, ∀ (code : Int) (out err : String),
        (s.script.getD "").isEmpty = false →
        env.run_process (psCmd (s.script.getD "")) 120 = ProcResult.exited code out err →
        code ≠ 0 →
        (⟨"warning", "Step \x27" ++ s.stepName.getD "Unknown" ++ "\x27 failed: " ++ err⟩ :
          LogEntry) ∈ (run_post_steps env app st).snd.log)
    ∧ (∀ (u fn : String) (content : List Nat) (entries : List (String × List Nat)),
        app.install_type = some "zip" → app.url = some u → app.filename = some fn →
        u.isEmpty = false → fn.isEmpty = false → app.checksum = none →
        env.http_get u = DlResult.ok content → env.parseZip content = some entries →
        (install_single_app env app st).fst = true)
    ∧ (∀ (filename out err : String),
        env.run_process (installerCmd filename) 600 = ProcResult.exited 0 out err →
        (run_installer env filename app st).fst = true) := by
  have h1 : (run_post_steps env app st).fst = true := by
    by_cases hemp : app.post_steps.isEmpty = true
    · simp [run_post_steps, hemp]
    · obtain ⟨st2, hloop⟩ := postStepsLoop_all_exited env app.post_steps
        (logMessage st "Running post-installation steps..." "info") hall
      simp [run_post_steps, hemp, hloop]
  refine ⟨h1, ?_, ?_, ?_⟩
  · intro s hs code out err hne hr hcode
    by_cases hemp : app.post_steps.isEmpty = true
    · rw [List.isEmpty_iff.mp hemp] at hs
      simp at hs
    · have hw := postStepsLoop_warn env app.post_steps
        (logMessage st "Running post-installation steps..." "info") hall
        s hs code out err hne hr hcode
      obtain ⟨st2, hloop⟩ := postStepsLoop_all_exited env app.post_steps
        (logMessage st "Running post-installation steps..." "info") hall
      rw [hloop] at hw
      simpa [run_post_steps, hemp, hloop] using hw
  · intro u fn content entries ht hu hf hue hfe hckn hdl hz
    rw [install_zip_run env app u fn content entries ht hu hf hue hfe hckn hdl hz st]
    rw [run_post_steps_fst env app _ st]
    exact h1
  · intro filename out err hr0
    have hred : (run_installer env filename app st).fst
        = (run_post_steps env app
            (logMessage
              (addProc (logMessage st ("Running installer: " ++ filename) "info")
                (installerCmd filename))
              "Installation completed successfully" "success")).fst := by
      simp [run_installer, hr0]
    rw [hred, run_post_steps_fst env app _ st]
    exact h1

/-- C3 witness: a zip descriptor whose single post-step exits 3 — install
still returns `True` and the warning naming the step is in the post-step
log. -/
theorem claim_C3_witness :
    (install_single_app envPS appPS stEmpty).fst = true
    ∧ (⟨"warning", "Step \x27Step1\x27 failed: boom"⟩ : LogEntry)
        ∈ (run_post_steps envPS appPS stEmpty).snd.log := by
  have h := claim_C3_amended_completed_post_steps_only_warn envPS appPS stEmpty (by decide)
  refine ⟨h.2.2.1 "u" "a.zip" [1] [("f", [2])] rfl rfl rfl (by decide) (by decide)
    rfl rfl rfl, ?_⟩
  exact h.2.1 ⟨some "Step1", some "x"⟩ (by decide) 3 "" "boom" (by decide) (by decide)
    (by decide)

/-- C4 counterexample: against the mocked releases response, the github
descriptor's install SUCCEEDS, the requested URLs show the
`tool-windows-x64.zip` asset was selected, its payload parses as a valid
archive — yet nothing is ever extracted: the file is saved under the
PATTERN name `windows-x64`, which triggers neither extraction nor an
installer run, refuting "proceeds as a zip install". -/
theorem claim_C4_counterexample :
    (install_single_app envC4 appC4 stEmpty).fst = true
    ∧ (install_single_app envC4 appC4 stEmpty).snd.netCalls
        = [apiUrl "org/tool", "https://example.com/tool-windows-x64.zip"]
    ∧ envC4.parseZip [80, 75] = some [("tool.exe", [1])]
    ∧ (install_single_app envC4 appC4 stEmpty).snd.extracted = []
    ∧ lookupAssoc (install_single_app envC4 appC4 stEmpty).snd.files (dlPath "windows-x64")
        = some [80, 75] :=
  ⟨by decide, by decide, by decide, by decide, by decide⟩

/-- C4 amended: the dispatcher selects the download URL of the FIRST asset
whose name contains the pattern and delegates to the generic download
path with the PATTERN as destination file name; since that name ends in
neither `.exe` nor `.msi`, no installer runs and no extraction is
performed — the archive is saved as-is and install returns `True` on the
download (plus post-steps) alone. -/
theorem claim_C4_amended_github_selects_first_match_plain_download
    (env : Env) (app : App) (st : St) (repo pat u : String) (assets : List Asset)
    (content : List Nat)
    (ht : app.install_type = some "github") (hr : app.github_repo = some repo)
    (ha : app.github_asset = some pat)
    (hre : repo.isEmpty = false) (hpe : pat.isEmpty = false)
    (hrel : env.releases_get (apiUrl repo) = RelResult.ok assets)
    (hfind : findAssetUrl pat assets = some u) (hue : u.isEmpty = false)
    (hdl : env.http_get u = DlResult.ok content)
    (hck : (pyStrip (app.checksum.getD "")).isEmpty = true)
    (hnx : (pyEndsWith pat ".exe" || pyEndsWith pat ".msi") = false)
    (hps : app.post_steps = []) :
    (install_single_app env app st).fst = true
    ∧ (install_single_app env app st).snd.netCalls = st.netCalls ++ [apiUrl repo, u]
    ∧ (install_single_app env app st).snd.extracted = st.extracted
    ∧ (install_single_app env app st).snd.procs = st.procs
    ∧ lookupAssoc (install_single_app env app st).snd.files (dlPath pat) = some content := by
  refine ⟨?_, ?_, ?_, ?_, ?_⟩ <;>
    simp [install_single_app, dispatchInstall, install_via_github, download_and_install,
      finishInstall, run_post_steps, ht, hr, ha, pyTruthy, hre, hpe, hrel, hfind, hue,
      hdl, hck, hnx, hps, logMessage, addNet, setFile, lookupAssoc_setAssoc_self]

/-- C4 amended witness: the concrete scenario run through the amended
theorem. -/
theorem claim_C4_witness :
    (install_single_app envC4 appC4 stEmpty).snd.netCalls
        = [apiUrl "org/tool", "https://example.com/tool-windows-x64.zip"]
    ∧ (install_single_app envC4 appC4 stEmpty).snd.extracted
        = ([] : List (String × List Nat))
    ∧ (install_single_app envC4 appC4 stEmpty).snd.procs = ([] : List (List String)) := by
  have h := claim_C4_amended_github_selects_first_match_plain_download envC4 appC4 stEmpty
    "org/tool" "windows-x64" "https://example.com/tool-windows-x64.zip"
    [{ assetName := some "tool-windows-x64.zip",
       browser_download_url := some "https://example.com/tool-windows-x64.zip" },
     { assetName := some "tool-linux.tar.gz",
       browser_download_url := some "https://example.com/tool-linux.tar.gz" }]
    [80, 75] rfl rfl rfl (by decide) (by decide) (by decide) (by decide) (by decide)
    (by decide) rfl (by decide) rfl
  exact ⟨h.2.1, h.2.2.1, h.2.2.2.1⟩

/-- C8: the batch processes the descriptors in the given order (each
descriptor's `Installing:` banner appears in the final log as an in-order
sublist), a failure never stops the batch (progress is reported exactly
twice per descriptor, so every one is attempted), the last progress
fraction is `(completed, total)`, and the final summary pairs the number
of descriptors whose install returned `True` with the total. -/
theorem claim_C8_batch_order_progress_summary (env : Env) (apps : List App) (st : St) :
    (install_apps env apps st).snd.fst = apps.length
    ∧ (install_apps env apps st).fst
        = apps.countP (fun a => (install_single_app env a st).fst)
    ∧ (install_apps env apps st).snd.snd.progress.length
        = st.progress.length + 2 * apps.length
    ∧ (apps ≠ [] → (install_apps env apps st).snd.snd.progress.getLast?
        = some ((install_apps env apps st).fst, apps.length))
    ∧ List.Sublist
        (apps.map (fun a => LogEntry.mk "info" ("Installing: " ++ a.appName.getD "Unknown")))
        (install_apps env apps st).snd.snd.log
    ∧ (install_apps env apps st).snd.snd.summaries.getLast?
        = some ((install_apps env apps st).fst, apps.length) := by
  refine ⟨by simp [install_apps], ?_, ?_, ?_, ?_, ?_⟩
  · simp only [install_apps]
    rw [install_apps_loop_fst]
    simp
  · simp [install_apps, pushSummary, install_apps_loop_progress_len]
  · intro hne
    simpa [install_apps, pushSummary] using
      install_apps_loop_last env apps apps.length 0 st hne
  · obtain ⟨d, hd, hs⟩ := install_apps_loop_log env apps apps.length 0 st
    simp only [install_apps, pushSummary]
    simp only [hd]
    exact hs.trans (List.sublist_append_right _ d)
  · simp [install_apps, pushSummary, List.getLast?_concat]

/-- C8 witness: the three-descriptor batch where only the second fails
(bad checksum) reports the summary `(2, 3)` and its final progress pair
is `(2, 3)`. -/
theorem claim_C8_witness :
    (install_apps envW appsW8 stEmpty).fst = 2
    ∧ (install_apps envW appsW8 stEmpty).snd.fst = 3
    ∧ (install_apps envW appsW8 stEmpty).snd.snd.progress.getLast? = some (2, 3) := by
  have h := (claim_C8_batch_order_progress_summary envW appsW8 stEmpty).2.2.2.1
    (by decide)
  refine ⟨by decide, by decide, ?_⟩
  rw [show (install_apps envW appsW8 stEmpty).fst = 2 from by decide] at h
  exact h

/-- C9: running the same successful zip descriptor twice does not fail on
the second run: the pre-existing artifact and extraction directory are
tolerated, the artifact is overwritten, every member of the (second)
archive overwrites its file in the extraction directory, and files the
archive does not contain are left as the first run left them. -/
theorem claim_C9_zip_reinstall_overwrites (env : Env) (app : App) (st : St)
    (u fn : String) (content : List Nat) (entries : List (String × List Nat))
    (ht : app.install_type = some "zip") (hu : app.url = some u) (hf : app.filename = some fn)
    (hue : u.isEmpty = false) (hfe : fn.isEmpty = false) (hck : app.checksum = none)
    (hdl : env.http_get u = DlResult.ok content) (hz : env.parseZip content = some entries)
    (hps : app.post_steps = [])
    (hnd : (entries.map (fun e =>
        extractPath (app.extract_to.getD (pyReplace fn ".zip" "")) ++ "/" ++ e.fst)).Nodup) :
    (install_single_app env app st).fst = true
    ∧ (install_single_app env app (install_single_app env app st).snd).fst = true
    ∧ (∀ p ∈ entries,
        lookupAssoc
          (install_single_app env app (install_single_app env app st).snd).snd.extracted
          (extractPath (app.extract_to.getD (pyReplace fn ".zip" "")) ++ "/" ++ p.fst)
          = some p.snd)
    ∧ lookupAssoc
        (install_single_app env app (install_single_app env app st).snd).snd.files
        (dlPath fn) = some content
    ∧ (∀ k, (∀ e ∈ entries,
          extractPath (app.extract_to.getD (pyReplace fn ".zip" "")) ++ "/" ++ e.fst ≠ k) →
        lookupAssoc
          (install_single_app env app (install_single_app env app st).snd).snd.extracted k
          = lookupAssoc (install_single_app env app st).snd.extracted k) := by
  have hrun : ∀ st' : St, install_single_app env app st'
      = (true,
         logMessage
           (extractAll
             (logMessage
               (setFile (addNet (logMessage st' ("Downloading zip: " ++ fn) "info") u)
                 (dlPath fn) content)
               ("Downloaded zip to: " ++ dlPath fn ++ " (" ++ toString content.length ++
                 " bytes)") "info")
             (app.extract_to.getD (pyReplace fn ".zip" "")) entries)
           ("Extracted to: " ++ extractPath (app.extract_to.getD (pyReplace fn ".zip" "")))
           "info") := by
    intro st'
    rw [install_zip_run env app u fn content entries ht hu hf hue hfe hck hdl hz st']
    simp [run_post_steps, hps]
  refine ⟨by rw [hrun st], by rw [hrun], ?_, ?_, ?_⟩
  · intro p hp
    rw [hrun ((install_single_app env app st).snd)]
    simp only [logMessage]
    exact lookupAssoc_extractAll_mem _ entries _ p hp hnd
  · rw [hrun ((install_single_app env app st).snd)]
    simp [logMessage, setFile, addNet, lookupAssoc_setAssoc_self]
  · intro k hk
    rw [hrun ((install_single_app env app st).snd)]
    simp only [logMessage]
    rw [lookupAssoc_extractAll_notin _ k entries _ hk]
    simp [logMessage, setFile, addNet]

/-- C9 witness: the no-checksum zip descriptor run twice under `envW`:
both runs succeed and the second run's extraction directory holds the
archive member `f ↦ [2]`. -/
theorem claim_C9_witness :
    (install_single_app envW appZipOk stEmpty).fst = true
    ∧ (install_single_app envW appZipOk (install_single_app envW appZipOk stEmpty).snd).fst
        = true
    ∧ lookupAssoc
        (install_single_app envW appZipOk
          (install_single_app envW appZipOk stEmpty).snd).snd.extracted
        (extractPath (appZipOk.extract_to.getD (pyReplace "a.zip" ".zip" "")) ++ "/" ++ "f")
        = some [2] := by
  have h := claim_C9_zip_reinstall_overwrites envW appZipOk stEmpty "u" "a.zip" [1]
    [("f", [2])] rfl rfl rfl (by decide) (by decide) rfl rfl rfl rfl (by decide)
  exact ⟨h.1, h.2.1, h.2.2.1 ("f", [2]) (by decide)⟩

end ExilesInstaller
